import Mathlib

/-!
Verification of the terminal-interaction and process-handoff core of the
QL quick launcher (`ql.py`) against its specification.

The Python code is shallowly embedded: Python strings become `List Char`
(`Str`), the ordered command dictionary becomes an association list, the
filesystem of temporary scripts becomes a list of file records, and every
interactive prompt / OS call is threaded through an explicit environment
record (`Env`) of oracle answers.  Machine-independent behaviour (string
scanning, list manipulation, dispatch logic) is translated line by line
from the source.
-/

set_option maxRecDepth 400000

namespace QL

/-- A Python string, embedded as its list of characters. -/
abbrev Str := List Char

/-- The characters of a Lean string literal (used to write down the
concrete strings appearing in the source). -/
def str (s : String) : Str := s.data

/-- Python `s.lower()` (ASCII case folding, as used by the launcher). -/
def lower (s : Str) : Str := s.map Char.toLower

/-! ## FuzzyMatcher: `UIManager.fuzzy_match` (ql.py lines 130-150) -/

/-- The subsequence scan of `fuzzy_match`: Python's
`for char in text_str: if i < len(pattern_str) and char == pattern_str[i]: i += 1`,
returning the final value of the cursor `i`. -/
def fuzzyLoop (p : Str) : Str → Nat → Nat
  | [], i => i
  | c :: t, i => fuzzyLoop p t (if i < p.length ∧ p.get? i = some c then i + 1 else i)

/-- `UIManager.fuzzy_match(text, pattern)`: empty pattern matches, then a
case-insensitive substring test, then the ordered subsequence scan
(`return i == len(pattern_str)`). -/
def fuzzy_match (text pattern : Str) : Bool :=
  if pattern = [] then true
  else
    let t := lower text
    let p := lower pattern
    if p <:+: t then true
    else fuzzyLoop p t 0 == p.length

theorem fuzzyLoop_of_le (p t : Str) (i : Nat) (h : p.length ≤ i) : fuzzyLoop p t i = i := by
  induction t with
  | nil => rfl
  | cons c t ih =>
      simp only [fuzzyLoop]
      rw [if_neg fun hc => absurd hc.1 (by omega)]
      exact ih

theorem fuzzyLoop_eq_length_iff (p : Str) (t : Str) :
    ∀ i, i ≤ p.length → (fuzzyLoop p t i = p.length ↔ List.Sublist (p.drop i) t) := by
  induction t with
  | nil =>
      intro i hi
      simp only [fuzzyLoop, List.sublist_nil, List.drop_eq_nil_iff]
      omega
  | cons c t ih =>
      intro i hi
      simp only [fuzzyLoop]
      by_cases hlt : i < p.length
      · have hdrop : p.drop i = p[i] :: p.drop (i + 1) := List.drop_eq_getElem_cons hlt
        by_cases hc : p.get? i = some c
        · rw [if_pos ⟨hlt, hc⟩, ih (i + 1) (by omega), hdrop]
          have hci : p[i] = c := by
            have := List.get?_eq_getElem? p i
            rw [List.getElem?_eq_getElem hlt] at this
            rw [this] at hc
            exact Option.some_injective _ hc
          rw [hci, List.cons_sublist_cons]
        · rw [if_neg fun hx => hc hx.2, ih i hi, hdrop]
          have hne : p[i] ≠ c := by
            intro hx
            apply hc
            rw [List.get?_eq_getElem? p i, List.getElem?_eq_getElem hlt, hx]
          constructor
          · intro hs
            exact hs.cons c
          · intro hs
            rcases List.cons_sublist_cons'.mp hs with h1 | h2
            · exact h1
            · exact absurd h2.1 hne
      · have hieq : i = p.length := by omega
        rw [if_neg fun hx => absurd hx.1 hlt, fuzzyLoop_of_le p t i (by omega), hieq]
        simp [List.drop_length]

/-- C4. For every string `s`, `Matches(s, "")` is true; whenever the (lowercased)
pattern is a contiguous substring of the (lowercased) haystack the match
succeeds; otherwise the match succeeds exactly when the lowercased pattern is
an ordered subsequence (sublist) of the lowercased haystack; and in
particular `Matches("abc","ac")` is true while `Matches("abc","ca")` is
false. -/
theorem fuzzy_match_spec (s p : Str) :
    fuzzy_match s [] = true
    ∧ (lower p <:+: lower s → fuzzy_match s p = true)
    ∧ (¬ lower p <:+: lower s →
        (fuzzy_match s p = true ↔ List.Sublist (lower p) (lower s)))
    ∧ fuzzy_match (str "abc") (str "ac") = true
    ∧ fuzzy_match (str "abc") (str "ca") = false := by
  refine ⟨rfl, ?_, ?_, by decide, by decide⟩
  · intro hsub
    by_cases hp : p = []
    · simp [fuzzy_match, hp]
    · simp only [fuzzy_match, if_neg hp]
      rw [if_pos hsub]
  · intro hsub
    by_cases hp : p = []
    · exact absurd (by simp [hp, lower]) hsub
    · simp only [fuzzy_match, if_neg hp]
      rw [if_neg hsub]
      have h0 := fuzzyLoop_eq_length_iff (lower p) (lower s) 0 (Nat.zero_le _)
      simp only [List.drop_zero] at h0
      rw [← h0]
      exact beq_iff_eq

/-- Witness for `fuzzy_match_spec`: instantiating the substring and
subsequence clauses at concrete inputs. -/
theorem fuzzy_match_spec_witness :
    fuzzy_match (str "xAbCx") (str "abc") = true
    ∧ fuzzy_match (str "hello") (str "zz") = false := by
  constructor
  · exact (fuzzy_match_spec (str "xAbCx") (str "abc")).2.1 (by decide)
  · have h := (fuzzy_match_spec (str "hello") (str "zz")).2.2.1 (by decide)
    cases hb : fuzzy_match (str "hello") (str "zz") with
    | false => rfl
    | true => exact absurd (h.mp hb) (by decide)

/-! ## KeyReader: `UIManager.get_key` (ql.py lines 85-128), termios branch.

The input stream of `sys.stdin` is modelled as a list of characters; the
function returns the string `get_key` yields together with the unread
remainder of the stream. -/

/-- `UIManager.get_key` on the Unix (`termios`) path: read one character;
on ESC read two more and translate the three arrow sequences, returning
any other accumulated key text verbatim. -/
def get_key : Str → Str × Str
  | [] => ([], [])
  | c :: rest =>
    if c = '\x1b' then
      let key := c :: rest.take 2
      let rest' := rest.drop 2
      if key = ['\x1b', '[', 'A'] then (str "UP", rest')
      else if key = ['\x1b', '[', 'B'] then (str "DOWN", rest')
      else if key = ['\x1b', '[', 'C'] then (str "RIGHT", rest')
      else if key = ['\x1b', '[', 'D'] then (str "LEFT", rest')
      else (key, rest')
    else ([c], rest)

/-- C5 counterexample. The 3-byte sequence ESC `[` `Z` is *not* reported as a
bare Escape event: `get_key` returns the whole three-character sequence
`"\x1b[Z"`, which differs from the bare escape key `"\x1b"`. -/
theorem get_key_escZ_not_bare_escape :
    (get_key (str "\x1b[Z")).1 = str "\x1b[Z"
    ∧ (get_key (str "\x1b[Z")).1 ≠ str "\x1b" := by
  constructor
  · rfl
  · decide

/-- C5 amended. Reading an ESC byte consumes exactly two further bytes; the
four cursor sequences are translated to the symbolic `UP`/`DOWN`/`RIGHT`/`LEFT`
events; every other 3-byte sequence starting with ESC is returned verbatim as
the raw three-character string (not as a bare Escape event). -/
theorem get_key_escape_decoding (a b : Char) (rest : Str) :
    (get_key ('\x1b' :: a :: b :: rest)).2 = rest
    ∧ (get_key ('\x1b' :: '[' :: 'A' :: rest)).1 = str "UP"
    ∧ (get_key ('\x1b' :: '[' :: 'B' :: rest)).1 = str "DOWN"
    ∧ (get_key ('\x1b' :: '[' :: 'C' :: rest)).1 = str "RIGHT"
    ∧ (get_key ('\x1b' :: '[' :: 'D' :: rest)).1 = str "LEFT"
    ∧ (¬ (a = '[' ∧ (b = 'A' ∨ b = 'B' ∨ b = 'C' ∨ b = 'D')) →
        (get_key ('\x1b' :: a :: b :: rest)).1 = ['\x1b', a, b]) := by
  refine ⟨?_, by simp [get_key, str], by simp [get_key, str],
    by simp [get_key, str], by simp [get_key, str], ?_⟩
  · simp only [get_key, if_pos rfl, List.take_succ_cons, List.take_zero,
      List.drop_succ_cons, List.drop_zero]
    split_ifs <;> rfl
  · intro hne
    have hA : ('\x1b' :: a :: b :: ([] : Str)) ≠ ['\x1b', '[', 'A'] := by
      intro h
      injection h with _ h
      injection h with ha h
      injection h with hb _
      exact hne ⟨ha, Or.inl hb⟩
    have hB : ('\x1b' :: a :: b :: ([] : Str)) ≠ ['\x1b', '[', 'B'] := by
      intro h
      injection h with _ h
      injection h with ha h
      injection h with hb _
      exact hne ⟨ha, Or.inr (Or.inl hb)⟩
    have hC : ('\x1b' :: a :: b :: ([] : Str)) ≠ ['\x1b', '[', 'C'] := by
      intro h
      injection h with _ h
      injection h with ha h
      injection h with hb _
      exact hne ⟨ha, Or.inr (Or.inr (Or.inl hb))⟩
    have hD : ('\x1b' :: a :: b :: ([] : Str)) ≠ ['\x1b', '[', 'D'] := by
      intro h
      injection h with _ h
      injection h with ha h
      injection h with hb _
      exact hne ⟨ha, Or.inr (Or.inr (Or.inr hb))⟩
    simp only [get_key, if_pos rfl, List.take_succ_cons, List.take_zero,
      List.drop_succ_cons, List.drop_zero]
    rw [if_neg hA, if_neg hB, if_neg hC, if_neg hD]
    simp

/-- Witness for `get_key_escape_decoding` at the concrete sequence ESC `[` `Z`. -/
theorem get_key_escape_decoding_witness :
    (get_key ('\x1b' :: '[' :: 'Z' :: [])).2 = []
    ∧ (get_key ('\x1b' :: '[' :: 'Z' :: [])).1 = ['\x1b', '[', 'Z'] := by
  refine ⟨(get_key_escape_decoding '[' 'Z' []).1, ?_⟩
  exact (get_key_escape_decoding '[' 'Z' []).2.2.2.2.2 (by decide)

/-! ## ExecutionHandoff: script generation
(`QLLauncher._generate_script_content`, ql.py lines 1658-1713).

The two f-string templates are broken at their interpolation points into
the literal segments below; `_generate_script_content` concatenates them
around the interpolated `aliasArg`, `command` and `shell` values exactly as
the Python f-strings do. -/

/-- A stored entry is a "link" (single command) or a "chain". -/
inductive CmdType
  | link
  | chain
deriving DecidableEq

/-- The garbage-collection marker `'# QL Command Executor'`. -/
def marker : Str := str "# QL Command Executor"

def chainT0 : Str := str "#!/bin/bash\n# QL Command Executor - Chain Command\n# Auto-cleanup: this script will self-destruct\ntrap 'rm -f \"$0\" 2>/dev/null || true' EXIT INT TERM\n\ncd /\n\necho \"🚀 Running chain: "

def chainT1 : Str := str "\"\necho \"📁 Working directory: $(pwd)\"\necho \"──────────────────────────────────────────────────\"\n\nset -e\nset -o pipefail\n\necho \"⛓️  Executing chain command\"\n"

def chainT2 : Str := str "\n\necho \"──────────────────────────────────────────────────\"\necho \"✅ Chain '"

def chainT3 : Str := str "' completed successfully\"\n\n# Force cleanup before exec\nrm -f \"$0\" 2>/dev/null || true\n\nexec "

def chainT4 : Str := str "\n"

def linkT0 : Str := str "#!/bin/bash\n# QL Command Executor\n# Auto-cleanup: this script will self-destruct\ntrap 'rm -f \"$0\" 2>/dev/null || true' EXIT INT TERM\n\ncd /\n\necho \"🚀 Running: "

def linkT1 : Str := str "\"\necho \"📁 Working directory: $(pwd)\"\necho \"──────────────────────────────────────────────────\"\n\n"

def linkT2 : Str := str "\n\nexit_code=$?\n\necho \"──────────────────────────────────────────────────\"\nif [ $exit_code -eq 0 ]; then\n    echo \"✅ Command completed successfully\"\nelse\n    echo \"❌ Command failed with exit code $exit_code\"\nfi\n\n# Force cleanup before exec\nrm -f \"$0\" 2>/dev/null || true\n\nexec "

def linkT3 : Str := str "\n"

/-- `QLLauncher._generate_script_content(aliasArg, command, cmd_type, shell)`. -/
def _generate_script_content (aliasArg command : Str) (cmd_type : CmdType) (shell : Str) : Str :=
  match cmd_type with
  | .chain =>
      chainT0 ++ aliasArg ++ chainT1 ++ command ++ chainT2 ++ aliasArg ++ chainT3 ++ shell ++ chainT4
  | .link =>
      linkT0 ++ command ++ linkT1 ++ command ++ linkT2 ++ shell ++ linkT3

/-! ### Counting occurrences of the marker -/

/-- The number of positions of `s` at which `p` occurs (as a contiguous
substring). -/
def countOccur (p : Str) (s : Str) : Nat :=
  match s with
  | [] => 0
  | c :: rest => (if p <+: c :: rest then 1 else 0) + countOccur p rest

theorem countOccur_eq_zero_of_no_occurrence (p s : Str) (h : ¬ p <:+: s) : countOccur p s = 0 := by
  induction s with
  | nil => rfl
  | cons c rest ih =>
      simp only [countOccur]
      rw [if_neg fun hp => h hp.isInfix,
        ih fun hi => h (hi.trans (List.suffix_cons c rest).isInfix)]

/-- No occurrence of `p` in `a ++ b` straddles the boundary between `a`
and `b`. -/
def NoCross (p a b : Str) : Prop :=
  ∀ k, 0 < k → k < p.length → ¬(p.take k <:+ a ∧ p.drop k <+: b)

theorem countOccur_append (p : Str) (a b : Str) (h : NoCross p a b) :
    countOccur p (a ++ b) = countOccur p a + countOccur p b := by
  induction a with
  | nil => simp [countOccur]
  | cons c a ih =>
      have hiff : p <+: (c :: a) ++ b ↔ p <+: c :: a := by
        constructor
        · intro hp
          by_cases hl : p.length ≤ (c :: a).length
          · have he : p = (c :: a).take p.length := by
              have h1 := List.prefix_iff_eq_take.mp hp
              rw [List.take_append_eq_append_take, Nat.sub_eq_zero_of_le hl,
                List.take_zero, List.append_nil] at h1
              exact h1
            rw [he]
            exact List.take_prefix _ _
          · exfalso
            obtain ⟨t, ht⟩ := hp
            have hm : 0 < (c :: a).length := by simp
            have htake : p.take (c :: a).length = c :: a := by
              have h1 : (p ++ t).take (c :: a).length = ((c :: a) ++ b).take (c :: a).length := by
                rw [ht]
              rw [List.take_append_eq_append_take, List.take_append_eq_append_take,
                Nat.sub_eq_zero_of_le (by omega), List.take_zero, List.append_nil,
                Nat.sub_self, List.take_zero, List.append_nil,
                List.take_length] at h1
              exact h1
            apply h (c :: a).length hm (by omega)
            refine ⟨by rw [htake], ?_⟩
            have hsplit : p.take (c :: a).length ++ p.drop (c :: a).length = p :=
              List.take_append_drop _ _
            rw [htake] at hsplit
            have : (c :: a) ++ (p.drop (c :: a).length ++ t) = (c :: a) ++ b := by
              rw [← List.append_assoc, hsplit, ht]
            exact ⟨t, List.append_cancel_left this⟩
        · intro hp
          exact hp.trans (List.prefix_append _ _)
      have hN : NoCross p a b := fun k h1 h2 hk =>
        h k h1 h2 ⟨hk.1.trans (List.suffix_cons c a), hk.2⟩
      calc countOccur p ((c :: a) ++ b)
          = (if p <+: (c :: a) ++ b then 1 else 0) + countOccur p (a ++ b) := rfl
        _ = (if p <+: c :: a then 1 else 0) + (countOccur p a + countOccur p b) := by
            rw [ih hN]
            congr 1
            simp only [hiff]
        _ = countOccur p (c :: a) + countOccur p b := by
            simp only [countOccur]
            omega

theorem noCross_left (p a b : Str)
    (h : ∀ k, k < p.length → 0 < k → ¬ p.take k <:+ a) : NoCross p a b :=
  fun k h1 h2 hk => h k h2 h1 hk.1

theorem noCross_of_head (p a b : Str) (c : Char) (hb : b.head? = some c)
    (hc : c ∉ p) : NoCross p a b := by
  intro k h1 h2 hk
  have hdrop : p.drop k = p[k] :: p.drop (k + 1) := List.drop_eq_getElem_cons h2
  cases b with
  | nil => cases hb
  | cons x xs =>
      have hx : x = c := by
        simp only [List.head?] at hb
        exact Option.some_injective _ hb
      rw [hdrop, hx] at hk
      have := (List.cons_prefix_cons.mp hk.2).1
      exact hc (this ▸ List.getElem_mem h2)

theorem head?_append_of_eq_some {α : Type} (a b : List α) (c : α)
    (h : a.head? = some c) : (a ++ b).head? = some c := by
  cases a with
  | nil => cases h
  | cons x xs => simpa using h

theorem countOccur_link (cmd sh : Str) (hc : ¬ marker <:+: cmd) (hs : ¬ marker <:+: sh) :
    countOccur marker (linkT0 ++ cmd ++ linkT1 ++ cmd ++ linkT2 ++ sh ++ linkT3) = 1 := by
  have e : linkT0 ++ cmd ++ linkT1 ++ cmd ++ linkT2 ++ sh ++ linkT3
      = linkT0 ++ (cmd ++ (linkT1 ++ (cmd ++ (linkT2 ++ (sh ++ linkT3))))) := by
    simp [List.append_assoc]
  rw [e]
  rw [countOccur_append marker linkT0 _ (noCross_left _ _ _ (by decide))]
  rw [countOccur_append marker cmd _
    (noCross_of_head _ _ _ '"' (head?_append_of_eq_some _ _ _ (by decide)) (by decide))]
  rw [countOccur_append marker linkT1 _ (noCross_left _ _ _ (by decide))]
  rw [countOccur_append marker cmd _
    (noCross_of_head _ _ _ '\n' (head?_append_of_eq_some _ _ _ (by decide)) (by decide))]
  rw [countOccur_append marker linkT2 _ (noCross_left _ _ _ (by decide))]
  rw [countOccur_append marker sh _ (noCross_of_head _ _ _ '\n' (by decide) (by decide))]
  rw [countOccur_eq_zero_of_no_occurrence _ _ hc, countOccur_eq_zero_of_no_occurrence _ _ hs]
  have h0 : countOccur marker linkT0 = 1 := by decide
  have h1 : countOccur marker linkT1 = 0 := by decide
  have h2 : countOccur marker linkT2 = 0 := by decide
  have h3 : countOccur marker linkT3 = 0 := by decide
  omega

theorem countOccur_chain (aliasArg cmd sh : Str) (ha : ¬ marker <:+: aliasArg)
    (hc : ¬ marker <:+: cmd) (hs : ¬ marker <:+: sh) :
    countOccur marker
      (chainT0 ++ aliasArg ++ chainT1 ++ cmd ++ chainT2 ++ aliasArg ++ chainT3 ++ sh ++ chainT4) = 1 := by
  have e : chainT0 ++ aliasArg ++ chainT1 ++ cmd ++ chainT2 ++ aliasArg ++ chainT3 ++ sh ++ chainT4
      = chainT0 ++ (aliasArg ++ (chainT1 ++ (cmd ++ (chainT2 ++ (aliasArg ++ (chainT3 ++ (sh ++ chainT4))))))) := by
    simp [List.append_assoc]
  rw [e]
  rw [countOccur_append marker chainT0 _ (noCross_left _ _ _ (by decide))]
  rw [countOccur_append marker aliasArg _
    (noCross_of_head _ _ _ '"' (head?_append_of_eq_some _ _ _ (by decide)) (by decide))]
  rw [countOccur_append marker chainT1 _ (noCross_left _ _ _ (by decide))]
  rw [countOccur_append marker cmd _
    (noCross_of_head _ _ _ '\n' (head?_append_of_eq_some _ _ _ (by decide)) (by decide))]
  rw [countOccur_append marker chainT2 _ (noCross_left _ _ _ (by decide))]
  rw [countOccur_append marker aliasArg _
    (noCross_of_head _ _ _ '\'' (head?_append_of_eq_some _ _ _ (by decide)) (by decide))]
  rw [countOccur_append marker chainT3 _ (noCross_left _ _ _ (by decide))]
  rw [countOccur_append marker sh _ (noCross_of_head _ _ _ '\n' (by decide) (by decide))]
  rw [countOccur_eq_zero_of_no_occurrence _ _ ha, countOccur_eq_zero_of_no_occurrence _ _ hc,
    countOccur_eq_zero_of_no_occurrence _ _ hs]
  have h0 : countOccur marker chainT0 = 1 := by decide
  have h1 : countOccur marker chainT1 = 0 := by decide
  have h2 : countOccur marker chainT2 = 0 := by decide
  have h3 : countOccur marker chainT3 = 0 := by decide
  have h4 : countOccur marker chainT4 = 0 := by decide
  omega

theorem marker_infix_generate (aliasArg cmd : Str) (ty : CmdType) (sh : Str) :
    marker <:+: _generate_script_content aliasArg cmd ty sh := by
  cases ty with
  | chain =>
      have h0 : marker <:+: chainT0 := by decide
      have e : _generate_script_content aliasArg cmd .chain sh
          = chainT0 ++ (aliasArg ++ (chainT1 ++ (cmd ++ (chainT2 ++ (aliasArg ++ (chainT3 ++ (sh ++ chainT4))))))) := by
        simp [_generate_script_content, List.append_assoc]
      rw [e]
      exact h0.trans (List.prefix_append _ _).isInfix
  | link =>
      have h0 : marker <:+: linkT0 := by decide
      have e : _generate_script_content aliasArg cmd .link sh
          = linkT0 ++ (cmd ++ (linkT1 ++ (cmd ++ (linkT2 ++ (sh ++ linkT3))))) := by
        simp [_generate_script_content, List.append_assoc]
      rw [e]
      exact h0.trans (List.prefix_append _ _).isInfix

/-! ## ScriptGarbageCollector
(`QLLauncher.cleanup_old_scripts`, ql.py lines 731-755, and
`QLLauncher.force_cleanup_all_scripts`, lines 1551-1574).

The temp-script directory is a list of file records.  Each record carries
an `opFail` flag injecting a per-file `OSError`/`IOError` (from
`getmtime`, `open` or `unlink`), which the per-file `except` clause
swallows. -/

structure ScriptFile where
  name : Str
  mtime : Int
  content : Str
  opFail : Bool
deriving DecidableEq

abbrev TmpDir := List ScriptFile

/-- The directory scan `glob.glob(str(script_dir / '*_ql.sh'))`: a file is a
candidate when its name ends in `_ql.sh`; glob's `*` does not match a
leading dot. -/
def globMatch (n : Str) : Bool :=
  decide (str "_ql.sh" <:+ n) && !(decide (['.'] <+: n))

/-- The per-file removal condition of `cleanup_old_scripts`: candidate name,
no I/O error on the file, age above 300 seconds, marker present. -/
def oldRemovable (now : Int) (f : ScriptFile) : Bool :=
  globMatch f.name && !f.opFail && decide (now - f.mtime > 300)
    && decide (marker <:+: f.content)

/-- The per-file removal condition of `force_cleanup_all_scripts`: as
`oldRemovable` but ignoring age. -/
def allRemovable (f : ScriptFile) : Bool :=
  globMatch f.name && !f.opFail && decide (marker <:+: f.content)

/-- `QLLauncher.cleanup_old_scripts`: removes every candidate file older
than 300 seconds whose content contains the marker, swallowing per-file
errors.  The second component is the Python function's return value: the
function has no `return` statement, so it returns `None`. -/
def cleanup_old_scripts (now : Int) : TmpDir → TmpDir × Option Nat
  | [] => ([], none)
  | f :: rest =>
    let r := cleanup_old_scripts now rest
    if oldRemovable now f then (r.1, r.2) else (f :: r.1, r.2)

/-- `QLLauncher.force_cleanup_all_scripts`: the same sweep ignoring age,
counting (`cleaned += 1`) and returning the number of files removed. -/
def force_cleanup_all_scripts : TmpDir → TmpDir × Nat
  | [] => ([], 0)
  | f :: rest =>
    let r := force_cleanup_all_scripts rest
    if allRemovable f then (r.1, r.2 + 1) else (f :: r.1, r.2)

theorem cleanup_old_scripts_fst (now : Int) (dir : TmpDir) :
    (cleanup_old_scripts now dir).1 = dir.filter (fun f => !oldRemovable now f) := by
  induction dir with
  | nil => rfl
  | cons f rest ih =>
      simp only [cleanup_old_scripts, List.filter]
      by_cases hf : oldRemovable now f
      · rw [if_pos hf, hf]
        exact ih
      · rw [if_neg hf, Bool.not_eq_true] at *
        rw [hf]
        simpa using ih

theorem cleanup_old_scripts_snd (now : Int) (dir : TmpDir) :
    (cleanup_old_scripts now dir).2 = none := by
  induction dir with
  | nil => rfl
  | cons f rest ih =>
      simp only [cleanup_old_scripts]
      by_cases hf : oldRemovable now f
      · rw [if_pos hf]; exact ih
      · rw [if_neg hf]; exact ih

theorem force_cleanup_all_scripts_fst (dir : TmpDir) :
    (force_cleanup_all_scripts dir).1 = dir.filter (fun f => !allRemovable f) := by
  induction dir with
  | nil => rfl
  | cons f rest ih =>
      simp only [force_cleanup_all_scripts, List.filter]
      by_cases hf : allRemovable f
      · rw [if_pos hf, hf]
        exact ih
      · rw [if_neg hf, Bool.not_eq_true] at *
        rw [hf]
        simpa using ih

theorem force_cleanup_all_scripts_count (dir : TmpDir) :
    (force_cleanup_all_scripts dir).2 + (force_cleanup_all_scripts dir).1.length
      = dir.length := by
  induction dir with
  | nil => rfl
  | cons f rest ih =>
      simp only [force_cleanup_all_scripts]
      by_cases hf : allRemovable f
      · rw [if_pos hf]
        simp only [List.length_cons]
        omega
      · rw [if_neg hf]
        simp only [List.length_cons]
        omega

/-- The three files of the spec's garbage-collection scenario, at
`now = 1000`: 400 seconds old with the marker, 400 seconds old without the
marker, 10 seconds old with the marker. -/
def gcA : ScriptFile :=
  ⟨str "a_ql.sh", 600, str "#!/bin/bash\n# QL Command Executor\necho a\n", false⟩

def gcB : ScriptFile := ⟨str "b_ql.sh", 600, str "#!/bin/bash\necho b\n", false⟩

def gcC : ScriptFile :=
  ⟨str "c_ql.sh", 990, str "#!/bin/bash\n# QL Command Executor\necho c\n", false⟩

/-- A file on which every per-file operation raises (injected I/O error). -/
def gcErr : ScriptFile :=
  ⟨str "e_ql.sh", 600, str "#!/bin/bash\n# QL Command Executor\necho e\n", true⟩

/-- C2. A file (on which no I/O error occurs) is removed by the age-bounded
sweep iff its name matches the `*_ql.sh` pattern, its age exceeds 300
seconds (the threshold the source hardcodes) and its content contains the
marker; and on the three-file scenario the sweep removes exactly the first
file. -/
theorem cleanup_old_scripts_removes_iff :
    (∀ (now : Int) (dir : TmpDir) (f : ScriptFile), f ∈ dir → f.opFail = false →
      (f ∉ (cleanup_old_scripts now dir).1 ↔
        (globMatch f.name = true ∧ now - f.mtime > 300 ∧ marker <:+: f.content)))
    ∧ (cleanup_old_scripts 1000 [gcA, gcB, gcC]).1 = [gcB, gcC] := by
  constructor
  · intro now dir f hf hop
    rw [cleanup_old_scripts_fst]
    have key : (f ∉ dir.filter fun g => !oldRemovable now g) ↔ oldRemovable now f = true := by
      constructor
      · intro h
        by_cases hr : oldRemovable now f
        · exact hr
        · exact absurd (List.mem_filter.mpr ⟨hf, by simp [hr]⟩) h
      · intro hr hmem
        have := (List.mem_filter.mp hmem).2
        simp [hr] at this
    rw [key]
    simp only [oldRemovable, hop, Bool.not_false, Bool.and_true,
      Bool.and_eq_true, decide_eq_true_iff]
    tauto
  · decide

/-- Witness for `cleanup_old_scripts_removes_iff`: the stale marker-bearing
file `gcA` is removed from the singleton directory. -/
theorem cleanup_old_scripts_removes_iff_witness :
    gcA ∉ (cleanup_old_scripts 1000 [gcA]).1 :=
  (cleanup_old_scripts_removes_iff.1 1000 [gcA] gcA (by decide) rfl).mpr
    ⟨by decide, by decide, by decide⟩

/-- C7 counterexample. On a directory holding exactly one stale
marker-bearing script, `cleanup_old_scripts` removes it (the directory is
left empty), yet its return value is `None` — not the count `1` of files
actually removed. -/
theorem cleanup_old_scripts_returns_no_count :
    (cleanup_old_scripts 1000 [gcA]).1 = []
    ∧ (cleanup_old_scripts 1000 [gcA]).2 = none
    ∧ (cleanup_old_scripts 1000 [gcA]).2 ≠ some 1 := by
  refine ⟨by decide, cleanup_old_scripts_snd 1000 [gcA], ?_⟩
  rw [cleanup_old_scripts_snd 1000 [gcA]]
  exact Option.noConfusion

/-- C7 amended. `SweepAll` (`force_cleanup_all_scripts`) returns exactly the
number of files it actually removed, and swallows per-file errors: a file
whose operations raise is left in place, not counted, and the sweep
continues over the rest.  `Sweep` (`cleanup_old_scripts`) likewise swallows
per-file errors and continues, but returns `None` (no count: the Python
function has no `return` statement). -/
theorem sweep_counts_and_swallows_errors :
    (∀ dir : TmpDir,
      (force_cleanup_all_scripts dir).2
        = dir.length - (force_cleanup_all_scripts dir).1.length)
    ∧ (∀ dir : TmpDir, ∀ f ∈ dir, f.opFail = true →
        f ∈ (force_cleanup_all_scripts dir).1)
    ∧ (∀ (now : Int) (dir : TmpDir), ∀ f ∈ dir, f.opFail = true →
        f ∈ (cleanup_old_scripts now dir).1)
    ∧ (∀ (now : Int) (dir : TmpDir), (cleanup_old_scripts now dir).2 = none) := by
  refine ⟨?_, ?_, ?_, cleanup_old_scripts_snd⟩
  · intro dir
    have := force_cleanup_all_scripts_count dir
    omega
  · intro dir f hf hop
    rw [force_cleanup_all_scripts_fst]
    refine List.mem_filter.mpr ⟨hf, ?_⟩
    simp [allRemovable, hop]
  · intro now dir f hf hop
    rw [cleanup_old_scripts_fst]
    refine List.mem_filter.mpr ⟨hf, ?_⟩
    simp [oldRemovable, hop]

/-- Witness for `sweep_counts_and_swallows_errors`: a sweep over a stale
script and an erroring file removes one file, counts it, and leaves the
erroring file in place. -/
theorem sweep_counts_and_swallows_errors_witness :
    (force_cleanup_all_scripts [gcA, gcErr]).2
        = ([gcA, gcErr] : TmpDir).length - (force_cleanup_all_scripts [gcA, gcErr]).1.length
    ∧ gcErr ∈ (force_cleanup_all_scripts [gcA, gcErr]).1
    ∧ gcErr ∈ (cleanup_old_scripts 1000 [gcA, gcErr]).1 :=
  ⟨sweep_counts_and_swallows_errors.1 [gcA, gcErr],
    sweep_counts_and_swallows_errors.2.1 [gcA, gcErr] gcErr (by decide) rfl,
    sweep_counts_and_swallows_errors.2.2.1 1000 [gcA, gcErr] gcErr (by decide) rfl⟩

/-! ## Command store, statistics and UI state -/

/-- A stored command entry (the dict values of `CommandManager.commands`,
with the default-filled fields of `load_commands`). -/
structure CmdData where
  type : CmdType
  command : Str
  description : Str
  tags : List Str
  created : Str
deriving DecidableEq

/-- `CommandManager.commands`: an `OrderedDict` as an association list
(keys unique, insertion-ordered). -/
abbrev Commands := List (Str × CmdData)

/-- `CommandManager.stats`: the `usage_count` and `last_used` dicts. -/
structure Stats where
  usage_count : List (Str × Nat)
  last_used : List (Str × Str)
deriving DecidableEq

/-- Python dict lookup `d.get(k)` on an association list. -/
def lookupA {β : Type} : List (Str × β) → Str → Option β
  | [], _ => none
  | p :: rest, k => if p.1 = k then some p.2 else lookupA rest k

/-- Python dict assignment `d[k] = v`: replace in place if the key exists,
otherwise append (insertion order). -/
def setAssoc {β : Type} : List (Str × β) → Str → β → List (Str × β)
  | [], k, v => [(k, v)]
  | p :: rest, k, v => if p.1 = k then (k, v) :: rest else p :: setAssoc rest k v

/-- Python dict deletion `del d[k]`. -/
def delAssoc {β : Type} : List (Str × β) → Str → List (Str × β)
  | [], _ => []
  | p :: rest, k => if p.1 = k then rest else p :: delAssoc rest k

theorem lookupA_setAssoc {β : Type} (l : List (Str × β)) (k : Str) (v : β) :
    lookupA (setAssoc l k v) k = some v := by
  induction l with
  | nil => simp [setAssoc, lookupA]
  | cons p rest ih =>
      simp only [setAssoc]
      by_cases hp : p.1 = k
      · rw [if_pos hp]
        simp [lookupA]
      · rw [if_neg hp]
        simp only [lookupA, if_neg hp]
        exact ih

/-- The on-disk files the launcher writes (`save_commands`, `save_stats`):
the last contents written to `.qlcom` and `.qlstats`. -/
structure Persist where
  commands_file : Commands
  stats_file : Stats
deriving DecidableEq

/-- The launcher's mutable data state. -/
structure AppState where
  commands : Commands
  stats : Stats
  persist : Persist
  tmpdir : TmpDir
deriving DecidableEq

/-- The mutable fields of `UIManager`. -/
structure UIState where
  selected_index : Nat
  input_buffer : Str
  input_mode : Bool
  filter_mode : Bool
  filter_text : Str
  show_preview : Bool
deriving DecidableEq

/-- Oracle answers for every interactive prompt and OS interaction a single
dispatch iteration can perform.  The `templates*` fields stand for the
effect of the nested template-management session (out of the claims'
scope): that session can freely rewrite the `UIManager` navigation fields
and create or delete temp scripts, but cannot touch the command store. -/
structure Env where
  now : Int
  nowIso : Str
  shellEnv : Option Str
  shellExists : Bool
  scriptName : Str
  createFails : Bool
  execFails : Bool
  dangerResponse : Str
  sudoResponse : Str
  typoResponse : Str
  pathResponse : Str
  overwriteResponse : Str
  descResponse : Str
  tagsResponse : Str
  removeResponse : Str
  editCmdResponse : Str
  editDescResponse : Str
  editTagsResponse : Str
  which : Str → Bool
  importFileExists : Bool
  importData : List (Str × CmdData)
  importResponse : Str
  templatesExitUI : UIState
  templatesExitTmp : TmpDir
  templatesExec : Option Str
  templateRunTmp : TmpDir
  templateRunExec : Option Str

/-! ## Dangerous-command detection
(`CommandManager.is_dangerous_command`, ql.py lines 352-357).

A small backtracking matcher for the eight `dangerous_patterns` regexes.
`re.IGNORECASE` is modelled by lowercasing the command and writing the
patterns in lowercase (the patterns are ASCII). -/

/-- Python regex `\w` (ASCII range): letter, digit or underscore. -/
def isWordChar (c : Char) : Bool :=
  ('a' ≤ c && c ≤ 'z') || ('A' ≤ c && c ≤ 'Z') || ('0' ≤ c && c ≤ '9') || c = '_'

/-- Python regex `\s` / `str.strip` whitespace (ASCII range). -/
def isPySpace (c : Char) : Bool :=
  c = ' ' || c = '\t' || c = '\n' || c = '\r' || c = '\x0b' || c = '\x0c'

/-- One element of a regex pattern: a literal character, a character
class, a word boundary `\b`, an optional character `c?`, or a starred
class `f*`. -/
inductive Pat
  | ch (c : Char)
  | cls (f : Char → Bool)
  | wb
  | opt (c : Char)
  | star (f : Char → Bool)

/-- `\b`: a word character on exactly one side of the position
(string boundaries count as non-word). -/
def wordB (prev : Option Char) (next : Option Char) : Bool :=
  (match prev with | none => false | some c => isWordChar c)
    != (match next with | none => false | some c => isWordChar c)

/-- Backtracking regex matching of a pattern against a prefix of `s`;
`prev` is the character just before `s` (for `\b`).  The recursion is
driven by a fuel counter so that it is structural (and so computes inside
the kernel): every recursive call strictly decreases
`ps.length + s.length`, so the initial fuel `ps.length + s.length + 1`
supplied by `runPat` can never run out. -/
def patMatch : Nat → List Pat → Option Char → Str → Bool
  | 0, _, _, _ => false
  | _ + 1, [], _, _ => true
  | fuel + 1, .ch c :: ps, _, x :: rest => x == c && patMatch fuel ps (some x) rest
  | _ + 1, .ch _ :: _, _, [] => false
  | fuel + 1, .cls f :: ps, _, x :: rest => f x && patMatch fuel ps (some x) rest
  | _ + 1, .cls _ :: _, _, [] => false
  | fuel + 1, .wb :: ps, prev, s => wordB prev s.head? && patMatch fuel ps prev s
  | fuel + 1, .opt _ :: ps, prev, [] => patMatch fuel ps prev []
  | fuel + 1, .opt c :: ps, prev, x :: rest =>
      (x == c && patMatch fuel ps (some x) rest) || patMatch fuel ps prev (x :: rest)
  | fuel + 1, .star _ :: ps, prev, [] => patMatch fuel ps prev []
  | fuel + 1, .star f :: ps, prev, x :: rest =>
      (f x && patMatch fuel (.star f :: ps) (some x) rest)
        || patMatch fuel ps prev (x :: rest)

def runPat (ps : List Pat) (prev : Option Char) (s : Str) : Bool :=
  patMatch (ps.length + s.length + 1) ps prev s

/-- `re.search`: try a match at every start position. -/
def reSearchAux (ps : List Pat) : Option Char → Str → Bool
  | prev, [] => runPat ps prev []
  | prev, x :: rest => runPat ps prev (x :: rest) || reSearchAux ps (some x) rest

def reSearch (ps : List Pat) (s : Str) : Bool := reSearchAux ps none s

/-- Literal characters of a pattern. -/
def chs (s : String) : List Pat := s.data.map Pat.ch

/-- `\s+` (one required whitespace, then any number). -/
def plusSp : List Pat := [.cls isPySpace, .star isPySpace]

/-- `r'\brm\s+-rf?\s+/'` -/
def patRmRf : List Pat :=
  [.wb] ++ chs "rm" ++ plusSp ++ chs "-r" ++ [.opt 'f'] ++ plusSp ++ chs "/"

/-- `r'\bshutdown\b'` -/
def patShutdown : List Pat := [.wb] ++ chs "shutdown" ++ [.wb]

/-- `r'\breboot\b'` -/
def patReboot : List Pat := [.wb] ++ chs "reboot" ++ [.wb]

/-- `r'\bdd\s+if='` -/
def patDdIf : List Pat := [.wb] ++ chs "dd" ++ plusSp ++ chs "if="

/-- `r'\bmkfs\b'` -/
def patMkfs : List Pat := [.wb] ++ chs "mkfs" ++ [.wb]

/-- `r'\bformat\b'` -/
def patFormat : List Pat := [.wb] ++ chs "format" ++ [.wb]

/-- `r'>\s*/dev/sd[a-z]'` -/
def patDevSd : List Pat :=
  chs ">" ++ [.star isPySpace] ++ chs "/dev/sd" ++ [.cls (fun c => 'a' ≤ c && c ≤ 'z')]

/-- `r'\bsudo\b.*\brm\b'` (`.` does not match a newline). -/
def patSudoRm : List Pat :=
  [.wb] ++ chs "sudo" ++ [.wb, .star (fun c => c != '\n'), .wb] ++ chs "rm" ++ [.wb]

/-- `CommandManager.dangerous_patterns`. -/
def dangerous_patterns : List (List Pat) :=
  [patRmRf, patShutdown, patReboot, patDdIf, patMkfs, patFormat, patDevSd, patSudoRm]

/-- `CommandManager.is_dangerous_command`. -/
def is_dangerous_command (command : Str) : Bool :=
  dangerous_patterns.any fun p => reSearch p (lower command)

/-- Python `str.strip()`. -/
def pyStrip (s : Str) : Str :=
  ((s.dropWhile isPySpace).reverse.dropWhile isPySpace).reverse

/-- `QLLauncher._check_sudo_cd_issues` (ql.py lines 1576-1603): warn on a
`sudo cd ` command; returns `true` (run cancelled) when the user does not
answer `y`. -/
def _check_sudo_cd_issues (command : Str) (env : Env) : Bool :=
  if str "sudo cd " <+: pyStrip command then
    if lower env.sudoResponse = str "y" then false else true
  else false

/-! ## ExecutionHandoff: `run_command_and_exit` (ql.py lines 1715-1775) -/

/-- `CommandManager.update_usage_stats` (lines 321-325): bump the usage
count, record the timestamp.  (`save_stats` is performed by the caller's
state update.) -/
def update_usage_stats (aliasArg : Str) (nowIso : Str) (stats : Stats) : Stats :=
  { usage_count :=
      setAssoc stats.usage_count aliasArg ((lookupA stats.usage_count aliasArg).getD 0 + 1),
    last_used := setAssoc stats.last_used aliasArg nowIso }

/-- `QLLauncher.move_command_to_front` (lines 1353-1360): pop the entry and
rebuild the dict with it first. -/
def move_command_to_front (aliasArg : Str) (cmds : Commands) : Commands :=
  match lookupA cmds aliasArg with
  | none => cmds
  | some d => (aliasArg, d) :: delAssoc cmds aliasArg

/-- Shell resolution of `_create_execution_script`:
`os.environ.get('SHELL', '/bin/bash')`, falling back to `/bin/bash` when
the path does not exist. -/
def resolveShell (env : Env) : Str :=
  let sh := env.shellEnv.getD (str "/bin/bash")
  if env.shellExists then sh else str "/bin/bash"

/-- `QLLauncher._create_execution_script` (lines 1629-1656): create the
uniquely named temp file, write the generated content, `chmod` it, and
return its path — or `None` on an I/O failure (`createFails`). -/
def _create_execution_script (aliasArg command : Str) (cmd_type : CmdType)
    (env : Env) (tmp : TmpDir) : Option (Str × TmpDir) :=
  if env.createFails then none
  else
    let shell := resolveShell env
    let content := _generate_script_content aliasArg command cmd_type shell
    some (env.scriptName, tmp ++ [⟨env.scriptName, env.now, content, false⟩])

/-- What a call of `run_command_and_exit` does to the process: replace the
process image (`os.execv` succeeded, control never returns), or return a
boolean to the interactive loop. -/
inductive RunOutcome
  | replaced (path : Str)
  | returned (continueLoop : Bool)
deriving DecidableEq

/-- `QLLauncher.run_command_and_exit` (lines 1715-1775): sweep old scripts,
update and save the statistics, move the entry to the front and save the
commands, then run the dangerous-command and `sudo cd` confirmations,
create the script and replace the process; every failure path returns
`True` to the interactive loop, and a failing `os.execv` also deletes the
temp file. -/
def run_command_and_exit (aliasArg : Str) (env : Env) (app : AppState) :
    AppState × RunOutcome :=
  match lookupA app.commands aliasArg with
  | none => (app, .returned true)
  | some cmd_data =>
      let tmp1 := (cleanup_old_scripts env.now app.tmpdir).1
      let stats1 := update_usage_stats aliasArg env.nowIso app.stats
      let cmds1 := move_command_to_front aliasArg app.commands
      let app3 : AppState :=
        { commands := cmds1, stats := stats1,
          persist := { commands_file := cmds1, stats_file := stats1 },
          tmpdir := tmp1 }
      if is_dangerous_command cmd_data.command
          && !(decide (lower env.dangerResponse = str "y")) then
        (app3, .returned true)
      else if _check_sudo_cd_issues cmd_data.command env then
        (app3, .returned true)
      else
        match _create_execution_script aliasArg cmd_data.command cmd_data.type env app3.tmpdir with
        | none => (app3, .returned true)
        | some (path, tmp') =>
            if env.execFails then
              ({ app3 with tmpdir := tmp'.filter fun f => !(decide (f.name = path)) },
                .returned true)
            else
              ({ app3 with tmpdir := tmp' }, .replaced path)

/-- The initial `UIManager` field values (ql.py lines 48-55). -/
def ui₀ : UIState := ⟨0, [], false, false, [], true⟩

/-- A concrete environment for witnesses: every prompt is answered `y`
(except the typo suggestion, declined with `n`), no injected failure. -/
def env₀ : Env :=
  ⟨1000, str "2025-01-01T00:00:00", none, true, str "t_ql.sh", false, false,
   str "y", str "y", str "n", str "y", str "y", str "", str "", str "y",
   str "", str "", str "", fun _ => true, false, [], str "y",
   ui₀, [], none, [], none⟩

/-- C3. If the `os.execv` process-replacement call raises an OS error, the
temp script is deleted (no file of its name remains in the temp directory)
and `run_command_and_exit` returns `True`: the caller stays alive and
control goes back to the interactive loop instead of the process
terminating. -/
theorem run_command_and_exit_exec_failure (aliasArg : Str) (env : Env) (app : AppState)
    (cmd_data : CmdData) (hlook : lookupA app.commands aliasArg = some cmd_data)
    (hdanger : is_dangerous_command cmd_data.command = false
        ∨ lower env.dangerResponse = str "y")
    (hsudo : _check_sudo_cd_issues cmd_data.command env = false)
    (hcreate : env.createFails = false)
    (hexec : env.execFails = true) :
    (run_command_and_exit aliasArg env app).2 = .returned true
    ∧ ∀ f ∈ (run_command_and_exit aliasArg env app).1.tmpdir,
        f.name ≠ env.scriptName := by
  have hc1 : (is_dangerous_command cmd_data.command
      && !(decide (lower env.dangerResponse = str "y"))) = false := by
    rcases hdanger with h | h
    · simp [h]
    · simp [h]
  simp only [run_command_and_exit, hlook, hc1, hsudo, _create_execution_script, hcreate,
    hexec, Bool.false_eq_true, if_false, if_true, ite_false, ite_true]
  constructor
  · trivial
  · intro f hf
    have h2 := (List.mem_filter.mp hf).2
    simpa using h2

/-- Witness for `run_command_and_exit_exec_failure`: a failing `exec` of
the `build` entry leaves no temp script behind and keeps the caller
alive. -/
theorem run_command_and_exit_exec_failure_witness :
    (run_command_and_exit (str "build") { env₀ with execFails := true }
        ⟨[(str "build", ⟨.link, str "npm run build", [], [], []⟩)],
          ⟨[], []⟩, ⟨[], ⟨[], []⟩⟩, []⟩).2 = .returned true
    ∧ ∀ f ∈ (run_command_and_exit (str "build") { env₀ with execFails := true }
        ⟨[(str "build", ⟨.link, str "npm run build", [], [], []⟩)],
          ⟨[], []⟩, ⟨[], ⟨[], []⟩⟩, []⟩).1.tmpdir,
        f.name ≠ ({ env₀ with execFails := true } : Env).scriptName :=
  run_command_and_exit_exec_failure (str "build") _ _
    ⟨.link, str "npm run build", [], [], []⟩ rfl (Or.inl (by decide)) (by decide) rfl rfl

theorem run_command_and_exit_frame (aliasArg : Str) (env : Env) (app : AppState)
    (cmd_data : CmdData) (hlook : lookupA app.commands aliasArg = some cmd_data) :
    (run_command_and_exit aliasArg env app).1.commands
        = move_command_to_front aliasArg app.commands
    ∧ (run_command_and_exit aliasArg env app).1.stats
        = update_usage_stats aliasArg env.nowIso app.stats
    ∧ (run_command_and_exit aliasArg env app).1.persist.commands_file
        = (run_command_and_exit aliasArg env app).1.commands
    ∧ (run_command_and_exit aliasArg env app).1.persist.stats_file
        = (run_command_and_exit aliasArg env app).1.stats := by
  simp only [run_command_and_exit, hlook]
  split
  · exact ⟨rfl, rfl, rfl, rfl⟩
  · split
    · exact ⟨rfl, rfl, rfl, rfl⟩
    · split
      · exact ⟨rfl, rfl, rfl, rfl⟩
      · split
        · exact ⟨rfl, rfl, rfl, rfl⟩
        · exact ⟨rfl, rfl, rfl, rfl⟩

/-- C10. Running a saved command updates the data *before* the
dangerous-command and `sudo cd` confirmation prompts: in every outcome of
`run_command_and_exit` the entry has been moved to the front of the
ordering, its usage count has been incremented, and both the commands file
and the stats file have been saved with the new values; consequently a run
cancelled at either confirmation prompt (which returns `True` to the loop)
still keeps all of these updates. -/
theorem run_command_updates_before_prompts (aliasArg : Str) (env : Env) (app : AppState)
    (cmd_data : CmdData) (hlook : lookupA app.commands aliasArg = some cmd_data) :
    ((run_command_and_exit aliasArg env app).1.commands).head? = some (aliasArg, cmd_data)
    ∧ lookupA (run_command_and_exit aliasArg env app).1.stats.usage_count aliasArg
        = some ((lookupA app.stats.usage_count aliasArg).getD 0 + 1)
    ∧ (run_command_and_exit aliasArg env app).1.persist.commands_file
        = (run_command_and_exit aliasArg env app).1.commands
    ∧ (run_command_and_exit aliasArg env app).1.persist.stats_file
        = (run_command_and_exit aliasArg env app).1.stats
    ∧ (is_dangerous_command cmd_data.command = true →
        ¬ lower env.dangerResponse = str "y" →
        (run_command_and_exit aliasArg env app).2 = .returned true)
    ∧ (_check_sudo_cd_issues cmd_data.command env = true →
        (run_command_and_exit aliasArg env app).2 = .returned true) := by
  obtain ⟨h1, h2, h3, h4⟩ := run_command_and_exit_frame aliasArg env app cmd_data hlook
  refine ⟨?_, ?_, h3, h4, ?_, ?_⟩
  · rw [h1]
    simp [move_command_to_front, hlook]
  · rw [h2]
    exact lookupA_setAssoc _ _ _
  · intro hD hr
    have hc1 : (is_dangerous_command cmd_data.command
        && !(decide (lower env.dangerResponse = str "y"))) = true := by
      simp [hD, hr]
    simp [run_command_and_exit, hlook, hc1]
  · intro hS
    simp only [run_command_and_exit, hlook, hS]
    split
    · rfl
    · simp

/-- Witness for `run_command_updates_before_prompts`: a dangerous command
whose run is cancelled at the prompt still gets its usage count bumped
from 2 to 3, is moved to the front, and the caller stays in the loop. -/
theorem run_command_updates_before_prompts_witness :
    ((run_command_and_exit (str "boom") { env₀ with dangerResponse := str "n" }
        ⟨[(str "a", ⟨.link, str "echo a", [], [], []⟩),
          (str "boom", ⟨.link, str "shutdown now", [], [], []⟩)],
          ⟨[(str "boom", 2)], []⟩, ⟨[], ⟨[], []⟩⟩, []⟩).1.commands).head?
      = some (str "boom", ⟨.link, str "shutdown now", [], [], []⟩)
    ∧ lookupA (run_command_and_exit (str "boom") { env₀ with dangerResponse := str "n" }
        ⟨[(str "a", ⟨.link, str "echo a", [], [], []⟩),
          (str "boom", ⟨.link, str "shutdown now", [], [], []⟩)],
          ⟨[(str "boom", 2)], []⟩, ⟨[], ⟨[], []⟩⟩, []⟩).1.stats.usage_count (str "boom")
      = some 3
    ∧ (run_command_and_exit (str "boom") { env₀ with dangerResponse := str "n" }
        ⟨[(str "a", ⟨.link, str "echo a", [], [], []⟩),
          (str "boom", ⟨.link, str "shutdown now", [], [], []⟩)],
          ⟨[(str "boom", 2)], []⟩, ⟨[], ⟨[], []⟩⟩, []⟩).2 = .returned true := by
  have h := run_command_updates_before_prompts (str "boom")
    { env₀ with dangerResponse := str "n" }
    ⟨[(str "a", ⟨.link, str "echo a", [], [], []⟩),
      (str "boom", ⟨.link, str "shutdown now", [], [], []⟩)],
      ⟨[(str "boom", 2)], []⟩, ⟨[], ⟨[], []⟩⟩, []⟩
    ⟨.link, str "shutdown now", [], [], []⟩ rfl
  exact ⟨h.1, h.2.1, h.2.2.2.2.1 (by decide) (by decide)⟩

/-- C1 counterexample. A successful `Launch` of the link `x` whose command
body itself contains the marker text writes a script whose content holds
the marker three times (once from the template header and once for each of
the two interpolations of the body), not exactly once. -/
theorem marker_not_exactly_once_after_launch :
    (run_command_and_exit (str "x") env₀
        ⟨[(str "x", ⟨.link, str "echo '# QL Command Executor'", [], [], []⟩)],
          ⟨[], []⟩, ⟨[], ⟨[], []⟩⟩, []⟩).2 = .replaced (str "t_ql.sh")
    ∧ (run_command_and_exit (str "x") env₀
        ⟨[(str "x", ⟨.link, str "echo '# QL Command Executor'", [], [], []⟩)],
          ⟨[], []⟩, ⟨[], ⟨[], []⟩⟩, []⟩).1.tmpdir.map
        (fun f => countOccur marker f.content) = [3]
    ∧ (run_command_and_exit (str "x") env₀
        ⟨[(str "x", ⟨.link, str "echo '# QL Command Executor'", [], [], []⟩)],
          ⟨[], []⟩, ⟨[], ⟨[], []⟩⟩, []⟩).1.tmpdir.map
        (fun f => countOccur marker f.content) ≠ [1] := by
  refine ⟨by decide, by decide, by decide⟩

/-- C1 amended. Every generated script contains the marker
`# QL Command Executor` as a substring, for every alias, command body,
kind and shell; and the generated (written) content contains the marker
*exactly once* provided neither the alias nor the command body nor the
resolved shell path themselves contain the marker text. -/
theorem generated_script_marker (aliasArg cmd : Str) (ty : CmdType) (sh : Str) :
    marker <:+: _generate_script_content aliasArg cmd ty sh
    ∧ (¬ marker <:+: aliasArg → ¬ marker <:+: cmd → ¬ marker <:+: sh →
        countOccur marker (_generate_script_content aliasArg cmd ty sh) = 1) := by
  refine ⟨marker_infix_generate aliasArg cmd ty sh, ?_⟩
  intro ha hc hs
  cases ty with
  | chain => exact countOccur_chain aliasArg cmd sh ha hc hs
  | link => exact countOccur_link cmd sh hc hs

/-- Witness for `generated_script_marker` at the end-to-end scenario's
entry (`build` → `npm run build`, shell `/bin/bash`). -/
theorem generated_script_marker_witness :
    marker <:+: _generate_script_content (str "build") (str "npm run build")
        .link (str "/bin/bash")
    ∧ countOccur marker (_generate_script_content (str "build") (str "npm run build")
        .link (str "/bin/bash")) = 1 :=
  ⟨(generated_script_marker (str "build") (str "npm run build") .link (str "/bin/bash")).1,
    (generated_script_marker (str "build") (str "npm run build") .link (str "/bin/bash")).2
      (by decide) (by decide) (by decide)⟩

/-! ## InputStateMachine: the command screen
(`QLLauncher.command_interactive_mode`, ql.py lines 1849-1964, and
`QLLauncher.parse_input`, lines 1423-1549, with the command CRUD helpers
they call). -/

/-- Python `str.split()`: split on whitespace runs, dropping empties. -/
def pySplitGo : Str → Str → List Str
  | [], acc => if acc = [] then [] else [acc.reverse]
  | c :: rest, acc =>
      if isPySpace c then
        if acc = [] then pySplitGo rest [] else acc.reverse :: pySplitGo rest []
      else pySplitGo rest (c :: acc)

def pySplit (s : Str) : List Str := pySplitGo s []

/-- Python `' '.join(xs)`. -/
def joinSpace (xs : List Str) : Str := List.intercalate [' '] xs

/-- Python `str.isprintable()` on the values `get_key` returns (ASCII
control characters are not printable; the empty string is printable). -/
def pyIsPrintable (s : Str) : Bool :=
  s.all fun c => 32 ≤ c.toNat && c.toNat ≠ 127

/-- Python `str.isdigit()` (ASCII digits). -/
def pyDigits (s : Str) : Bool :=
  !(decide (s = [])) && s.all fun c => '0' ≤ c && c ≤ '9'

/-- Python `int` on a digit string. -/
def digitsToNat (s : Str) : Nat := s.foldl (fun n c => n * 10 + (c.toNat - 48)) 0

/-- `QLLauncher.get_filtered_commands` (lines 1178-1194): keep entries
whose alias, command, description or joined tags fuzzy-match the filter. -/
def get_filtered_commands (cmds : Commands) (filter_text : Str) : Commands :=
  if filter_text = [] then cmds
  else cmds.filter fun p =>
    fuzzy_match p.1 filter_text
    || fuzzy_match p.2.command filter_text
    || fuzzy_match p.2.description filter_text
    || fuzzy_match (joinSpace p.2.tags) filter_text

/-- `QLLauncher.get_command_suggestions` (lines 1196-1199). -/
def get_command_suggestions (cmds : Commands) (pref : Str) : List Str :=
  (cmds.map Prod.fst).filter fun a => decide (pref <+: a)

/-- `CommandManager.common_typos` (lines 198-206). -/
def common_typos : List (Str × Str) :=
  [(str "cd..", str "cd .."), (str "ls-la", str "ls -la"),
   (str "gitcommit", str "git commit"), (str "gitpush", str "git push"),
   (str "gitpull", str "git pull"), (str "npminstall", str "npm install"),
   (str "dockerrun", str "docker run")]

/-- Python `s.replace(old, new, 1)`: replace the first occurrence. -/
def replaceFirst (old new : Str) : Str → Str
  | [] => if old = [] then new else []
  | c :: rest =>
      if old <+: (c :: rest) then new ++ (c :: rest).drop old.length
      else c :: replaceFirst old new rest

/-- `CommandManager.validate_command` (lines 327-350): typo suggestion
(applied unless the answer is `n`), then a PATH existence check whose
refusal (`response != 'y'`) aborts with `None`. -/
def validate_command (command : Str) (env : Env) : Option Str :=
  let command :=
    match pySplit command with
    | [] => command
    | w :: _ =>
        match lookupA common_typos w with
        | none => command
        | some sugg =>
            if lower env.typoResponse = str "n" then command
            else replaceFirst w sugg command
  match pySplit command with
  | [] => some command
  | w :: _ =>
      if ¬(str "./" <+: w) ∧ ¬(w.contains '=') then
        if ¬(env.which w)
            ∧ ¬(w = str "cd" ∨ w = str "export" ∨ w = str "source" ∨ w = str ".") then
          if lower env.pathResponse = str "y" then some command else none
        else some command
      else some command

/-- The alias validation regex `^[a-zA-Z0-9_-]+$` of `add_command`. -/
def validAliasChars (a : Str) : Bool :=
  !(decide (a = [])) && a.all fun c =>
    ('a' ≤ c && c ≤ 'z') || ('A' ≤ c && c ≤ 'Z') || ('0' ≤ c && c ≤ '9')
      || c = '_' || c = '-'

/-- Python `s.split(',')`. -/
def splitComma : Str → Str → List Str
  | [], acc => [acc.reverse]
  | c :: rest, acc =>
      if c = ',' then acc.reverse :: splitComma rest [] else splitComma rest (c :: acc)

/-- The tag parsing of `add_command`/`edit_command`:
`[t.strip() for t in s.split(',') if t.strip()] if s else []`. -/
def parseTags (s : Str) : List Str :=
  if s = [] then [] else ((splitComma s []).map pyStrip).filter (· ≠ [])

/-- `CommandManager.add_command` (lines 359-420): validation, optional
overwrite confirmation, description/tags prompts, then the dict update and
`save_commands`.  Returns Python's truthiness of the result (`True` only
on the final `return True`). -/
def add_command (aliasArg command : Str) (cmd_type : CmdType) (env : Env)
    (cmds : Commands) : Bool × Commands :=
  if pyStrip aliasArg = [] then (false, cmds)
  else if pyStrip command = [] then (false, cmds)
  else
    let aliasArg := pyStrip aliasArg
    let command := pyStrip command
    if ¬(validAliasChars aliasArg = true) then (false, cmds)
    else
      match validate_command command env with
      | none => (false, cmds)
      | some command =>
          if (lookupA cmds aliasArg).isSome ∧ ¬(lower env.overwriteResponse = str "y") then
            (false, cmds)
          else
            let description := pyStrip env.descResponse
            let tags := parseTags (pyStrip env.tagsResponse)
            (true, setAssoc cmds aliasArg ⟨cmd_type, command, description, tags, env.nowIso⟩)

/-- `CommandManager.edit_command` (lines 422-471).  The boolean is true
iff the function reached its in-place update and `save_commands`. -/
def edit_command (aliasArg : Str) (env : Env) (cmds : Commands) : Bool × Commands :=
  match lookupA cmds aliasArg with
  | none => (false, cmds)
  | some cmd_data =>
      let newCmd := pyStrip env.editCmdResponse
      match (if newCmd = [] then some cmd_data.command else validate_command newCmd env) with
      | none => (false, cmds)
      | some current_command =>
          let nd := pyStrip env.editDescResponse
          let current_description := if nd = [] then cmd_data.description else nd
          let nt := pyStrip env.editTagsResponse
          let current_tags := if nt = [] then cmd_data.tags else parseTags nt
          (true, setAssoc cmds aliasArg
            { cmd_data with
                command := current_command,
                description := current_description,
                tags := current_tags })

/-- `CommandManager.remove_command` (lines 473-502): confirmation, then
deletion from the commands dict and both stats dicts. -/
def remove_command (aliasArg : Str) (env : Env) (cmds : Commands) (stats : Stats) :
    Bool × Commands × Stats :=
  match lookupA cmds aliasArg with
  | none => (false, cmds, stats)
  | some _ =>
      if lower env.removeResponse = str "y" then
        (true, delAssoc cmds aliasArg,
          ⟨delAssoc stats.usage_count aliasArg, delAssoc stats.last_used aliasArg⟩)
      else (false, cmds, stats)

/-- `QLLauncher.import_commands` (lines 1982-2039): the parsed import file
is provided by the environment (external I/O); conflicts prompt for
confirmation; each imported pair is assigned into the dict, then
`save_commands`.  The boolean is true iff the import was performed. -/
def import_commands (env : Env) (cmds : Commands) : Bool × Commands :=
  if ¬(env.importFileExists = true) then (false, cmds)
  else
    let conflicts := env.importData.filter fun p => (lookupA cmds p.1).isSome
    if conflicts ≠ [] ∧ ¬(lower env.importResponse = str "y") then (false, cmds)
    else (true, env.importData.foldl (fun acc p => setAssoc acc p.1 p.2) cmds)

/-- What a `parse_input` call asks the interactive loop to do:
continue (`True`), quit (`False`), or never return (process replaced). -/
inductive PRes
  | cont
  | quit
  | exec (path : Str)
deriving DecidableEq

/-- The result of `parse_input`: the updated UI fields and data state, the
loop request, and (for the trace) the alias passed to
`run_command_and_exit`, if any. -/
structure ParseRes where
  ui : UIState
  app : AppState
  res : PRes
  ran : Option Str
deriving DecidableEq

/-- `QLLauncher.parse_input` (lines 1423-1549).  The `templates` and
`template` verbs hand control to the template-management code, which
cannot touch the command store; its effect on the UI fields and the temp
directory, and whether it hands off execution, come from the environment
oracle. -/
def parse_input (user_input : Str) (env : Env) (ui : UIState) (app : AppState) : ParseRes :=
  if pyStrip user_input = [] then ⟨ui, app, .cont, none⟩
  else
    let parts := pySplit user_input
    let command := lower (parts.headD [])
    if command = str "quit" ∨ command = str "q" ∨ command = str "exit" then
      ⟨ui, app, .quit, none⟩
    else if command = str "help" then ⟨ui, app, .cont, none⟩
    else if command = str "templates" then
      match env.templatesExec with
      | some p => ⟨env.templatesExitUI, { app with tmpdir := env.templatesExitTmp }, .exec p, none⟩
      | none => ⟨env.templatesExitUI, { app with tmpdir := env.templatesExitTmp }, .cont, none⟩
    else if command = str "add" then
      match parts with
      | _ :: a :: c :: cs =>
          let r := add_command a (joinSpace (c :: cs)) .link env app.commands
          if r.1 then
            let app' := { app with
              commands := r.2,
              persist := { app.persist with commands_file := r.2 } }
            let disp := get_filtered_commands app'.commands ui.filter_text
            let ui' := match disp.findIdx? (fun p => decide (p.1 = a)) with
              | some i => { ui with selected_index := i }
              | none => ui
            ⟨ui', app', .cont, none⟩
          else ⟨ui, { app with commands := r.2 }, .cont, none⟩
      | _ => ⟨ui, app, .cont, none⟩
    else if command = str "chain" then
      match parts with
      | _ :: a :: c :: cs =>
          let r := add_command a (joinSpace (c :: cs)) .chain env app.commands
          if r.1 then
            let app' := { app with
              commands := r.2,
              persist := { app.persist with commands_file := r.2 } }
            let disp := get_filtered_commands app'.commands ui.filter_text
            let ui' := match disp.findIdx? (fun p => decide (p.1 = a)) with
              | some i => { ui with selected_index := i }
              | none => ui
            ⟨ui', app', .cont, none⟩
          else ⟨ui, { app with commands := r.2 }, .cont, none⟩
      | _ => ⟨ui, app, .cont, none⟩
    else if command = str "edit" then
      match parts with
      | _ :: a :: _ =>
          let r := edit_command a env app.commands
          if r.1 then
            ⟨ui, { app with
              commands := r.2,
              persist := { app.persist with commands_file := r.2 } }, .cont, none⟩
          else ⟨ui, { app with commands := r.2 }, .cont, none⟩
      | _ => ⟨ui, app, .cont, none⟩
    else if command = str "remove" then
      match parts with
      | _ :: a :: _ =>
          let r := remove_command a env app.commands app.stats
          if r.1 then
            let app' := { app with
              commands := r.2.1,
              stats := r.2.2,
              persist := ⟨r.2.1, r.2.2⟩ }
            let disp := get_filtered_commands app'.commands ui.filter_text
            let ui' := if disp.length ≤ ui.selected_index then
                { ui with selected_index := disp.length - 1 }
              else ui
            ⟨ui', app', .cont, none⟩
          else ⟨ui, app, .cont, none⟩
      | _ => ⟨ui, app, .cont, none⟩
    else if command = str "template" then
      if parts.length = 1 then
        match env.templatesExec with
        | some p => ⟨env.templatesExitUI, { app with tmpdir := env.templatesExitTmp }, .exec p, none⟩
        | none => ⟨env.templatesExitUI, { app with tmpdir := env.templatesExitTmp }, .cont, none⟩
      else if parts.length = 2 then
        match env.templateRunExec with
        | some p => ⟨ui, { app with tmpdir := env.templateRunTmp }, .exec p, none⟩
        | none => ⟨ui, { app with tmpdir := env.templateRunTmp }, .cont, none⟩
      else ⟨ui, app, .cont, none⟩
    else if command = str "export" then ⟨ui, app, .cont, none⟩
    else if command = str "import" then
      match parts with
      | _ :: _ :: _ =>
          let r := import_commands env app.commands
          if r.1 then
            ⟨ui, { app with
              commands := r.2,
              persist := { app.persist with commands_file := r.2 } }, .cont, none⟩
          else ⟨ui, app, .cont, none⟩
      | _ => ⟨ui, app, .cont, none⟩
    else if command = str "cleanup" then
      ⟨ui, { app with tmpdir := (force_cleanup_all_scripts app.tmpdir).1 }, .cont, none⟩
    else if (lookupA app.commands command).isSome then
      let r := run_command_and_exit command env app
      match r.2 with
      | .replaced p => ⟨ui, r.1, .exec p, some command⟩
      | .returned b => ⟨ui, r.1, if b then .cont else .quit, some command⟩
    else ⟨ui, app, .cont, none⟩

/-- `QLLauncher.reset_ui_state` (lines 723-729). -/
def reset_ui_state (ui : UIState) : UIState :=
  { ui with
      selected_index := 0,
      filter_mode := false,
      filter_text := [],
      input_mode := false,
      input_buffer := [] }

/-- What one iteration of the `command_interactive_mode` loop does:
continue looping, return a boolean (`False` quits the launcher, `True`
switches to the template screen), or hand off execution. -/
inductive IterOut
  | next
  | ret (b : Bool)
  | exec (path : Str)
deriving DecidableEq

/-- The result of one dispatch iteration. -/
structure StepRes where
  ui : UIState
  app : AppState
  iter : IterOut
  ran : Option Str
deriving DecidableEq

/-- One iteration of `QLLauncher.command_interactive_mode` (lines
1849-1964): read key `key`, recompute the filtered display, and dispatch
through the `elif` chain of the source. -/
def command_interactive_step (key : Str) (env : Env) (ui : UIState) (app : AppState) :
    StepRes :=
  let display_commands := get_filtered_commands app.commands ui.filter_text
  if key = str "\r" ∨ key = str "\n" then
    if ui.filter_mode then
      ⟨{ ui with filter_mode := false, selected_index := 0 }, app, .next, none⟩
    else if ui.input_mode ∧ pyStrip ui.input_buffer ≠ [] then
      let r := parse_input ui.input_buffer env ui app
      match r.res with
      | .quit => ⟨r.ui, r.app, .ret false, r.ran⟩
      | .cont => ⟨{ r.ui with input_buffer := [], input_mode := false }, r.app, .next, r.ran⟩
      | .exec p => ⟨r.ui, r.app, .exec p, r.ran⟩
    else if display_commands ≠ [] ∧ ui.input_mode = false then
      match display_commands[ui.selected_index]? with
      | some entry =>
          let r := run_command_and_exit entry.1 env app
          match r.2 with
          | .replaced p => ⟨ui, r.1, .exec p, some entry.1⟩
          | .returned b =>
              if b then ⟨ui, r.1, .next, some entry.1⟩ else ⟨ui, r.1, .ret false, some entry.1⟩
      | none => ⟨ui, app, .next, none⟩
    else ⟨ui, app, .next, none⟩
  else if key = str "\t" ∧ ui.input_mode then
    let suggestions := get_command_suggestions app.commands ui.input_buffer
    if suggestions.length = 1 then
      ⟨{ ui with input_buffer := suggestions.headD [] ++ [' '] }, app, .next, none⟩
    else ⟨ui, app, .next, none⟩
  else if pyDigits key = true ∧ ui.input_mode = false ∧ ui.filter_mode = false then
    let num : Int := (digitsToNat key : Int) - 1
    if 0 ≤ num ∧ num < display_commands.length ∧ num < 9 then
      match display_commands[num.toNat]? with
      | some entry =>
          let r := run_command_and_exit entry.1 env app
          match r.2 with
          | .replaced p => ⟨ui, r.1, .exec p, some entry.1⟩
          | .returned b =>
              if b then ⟨ui, r.1, .next, some entry.1⟩ else ⟨ui, r.1, .ret false, some entry.1⟩
      | none => ⟨ui, app, .next, none⟩
    else ⟨ui, app, .next, none⟩
  else if key = str "p" ∧ ui.input_mode = false ∧ ui.filter_mode = false then
    ⟨{ ui with show_preview := !ui.show_preview }, app, .next, none⟩
  else if key = str "UP" ∧ display_commands ≠ [] ∧ ui.input_mode = false
      ∧ ui.filter_mode = false then
    ⟨{ ui with selected_index := ui.selected_index - 1 }, app, .next, none⟩
  else if key = str "DOWN" ∧ display_commands ≠ [] ∧ ui.input_mode = false
      ∧ ui.filter_mode = false then
    ⟨{ ui with selected_index := min (display_commands.length - 1) (ui.selected_index + 1) },
      app, .next, none⟩
  else if key = str "\x04" ∧ display_commands ≠ [] ∧ ui.input_mode = false
      ∧ ui.filter_mode = false then
    ⟨ui, app, .next, none⟩
  else if key = str "\x19" ∧ display_commands ≠ [] ∧ ui.input_mode = false
      ∧ ui.filter_mode = false then
    ⟨ui, app, .next, none⟩
  else if key = str "/" ∧ ui.input_mode = false then
    ⟨{ ui with filter_mode := true, filter_text := [], selected_index := 0 }, app, .next, none⟩
  else if key = str "\x7f" ∨ key = str "\x08" then
    if ui.filter_mode then
      if ui.filter_text ≠ [] then
        ⟨{ ui with filter_text := ui.filter_text.dropLast, selected_index := 0 },
          app, .next, none⟩
      else ⟨{ ui with filter_mode := false }, app, .next, none⟩
    else if ui.input_mode ∧ ui.input_buffer ≠ [] then
      let nb := ui.input_buffer.dropLast
      if nb = [] then ⟨{ ui with input_buffer := nb, input_mode := false }, app, .next, none⟩
      else ⟨{ ui with input_buffer := nb }, app, .next, none⟩
    else ⟨ui, app, .next, none⟩
  else if key = str "\x1b" then
    if ui.filter_mode then
      ⟨{ ui with filter_mode := false, filter_text := [], selected_index := 0 },
        app, .next, none⟩
    else if ui.input_mode then
      ⟨{ ui with input_mode := false, input_buffer := [] }, app, .next, none⟩
    else ⟨ui, app, .next, none⟩
  else if key = str "\x03" then ⟨ui, app, .ret false, none⟩
  else if key = str "\x14" then ⟨reset_ui_state ui, app, .ret true, none⟩
  else if pyIsPrintable key = true then
    if ui.filter_mode then
      ⟨{ ui with filter_text := ui.filter_text ++ key, selected_index := 0 }, app, .next, none⟩
    else
      let ui1 := if ui.input_mode then ui else { ui with input_mode := true, input_buffer := [] }
      ⟨{ ui1 with input_buffer := ui1.input_buffer ++ key }, app, .next, none⟩
  else ⟨ui, app, .next, none⟩

/-- A one-entry command store for concrete dispatch scenarios. -/
def appOne : AppState :=
  ⟨[(str "a", ⟨.link, str "echo a", [], [], []⟩)], ⟨[], []⟩, ⟨[], ⟨[], []⟩⟩, []⟩

/-- A UI state sitting in `Filter` mode with filter text `ab`. -/
def uiFilter : UIState := ⟨0, [], false, true, str "ab", true⟩

/-- C6 counterexample. In `Filter` mode, pressing Ctrl+T is *not* ignored:
the dispatch switches to the template screen (the iteration returns
`True`) and resets the UI state, clearing the filter text — an action and
a state change, contradicting the claim that the reserved control keys do
nothing outside `Normal` mode. -/
theorem ctrlT_acts_in_filter_mode :
    (command_interactive_step (str "\x14") env₀ uiFilter appOne).iter = .ret true
    ∧ (command_interactive_step (str "\x14") env₀ uiFilter appOne).ui ≠ uiFilter := by
  constructor
  · decide
  · decide

/-- C6 amended. In `Filter` or `TextInput` mode, Ctrl+D (dry run) and
Ctrl+Y (clipboard copy) are ignored — no action, no state change — but
Ctrl+T and Ctrl+C are recognized in *any* mode: Ctrl+T resets the UI state
and switches screens (the iteration returns `True`), and Ctrl+C quits (the
iteration returns `False`). -/
theorem reserved_keys_in_submode (ui : UIState) (app : AppState) (env : Env)
    (h : ui.filter_mode = true ∨ ui.input_mode = true) :
    command_interactive_step (str "\x04") env ui app = ⟨ui, app, .next, none⟩
    ∧ command_interactive_step (str "\x19") env ui app = ⟨ui, app, .next, none⟩
    ∧ command_interactive_step (str "\x14") env ui app = ⟨reset_ui_state ui, app, .ret true, none⟩
    ∧ command_interactive_step (str "\x03") env ui app = ⟨ui, app, .ret false, none⟩ := by
  rcases h with h | h <;>
    refine ⟨?_, ?_, ?_, ?_⟩ <;>
    simp +decide [command_interactive_step, h]

/-- Witness for `reserved_keys_in_submode` in `Filter` mode. -/
theorem reserved_keys_in_submode_witness :
    command_interactive_step (str "\x04") env₀ uiFilter appOne = ⟨uiFilter, appOne, .next, none⟩
    ∧ command_interactive_step (str "\x19") env₀ uiFilter appOne = ⟨uiFilter, appOne, .next, none⟩
    ∧ command_interactive_step (str "\x03") env₀ uiFilter appOne
        = ⟨uiFilter, appOne, .ret false, none⟩ :=
  ⟨(reserved_keys_in_submode uiFilter appOne env₀ (Or.inl rfl)).1,
    (reserved_keys_in_submode uiFilter appOne env₀ (Or.inl rfl)).2.1,
    (reserved_keys_in_submode uiFilter appOne env₀ (Or.inl rfl)).2.2.2⟩

/-- C8. In `Normal` mode (no filter, no text input), a digit key `key`
invokes `run_command_and_exit` on the displayed entry at zero-based index
`int(key) - 1` exactly when that index is inside the displayed list and
below 9; otherwise no entry is run. -/
theorem digit_quick_select (key : Str) (env : Env) (ui : UIState) (app : AppState)
    (hin : ui.input_mode = false) (hfil : ui.filter_mode = false)
    (hd : pyDigits key = true) :
    (command_interactive_step key env ui app).ran
      = if 0 ≤ (digitsToNat key : Int) - 1
            ∧ (digitsToNat key : Int) - 1
              < ((get_filtered_commands app.commands ui.filter_text).length : Int)
            ∧ (digitsToNat key : Int) - 1 < 9
        then ((get_filtered_commands app.commands ui.filter_text)[
                ((digitsToNat key : Int) - 1).toNat]?).map Prod.fst
        else none := by
  have hr : key ≠ str "\r" := fun he => absurd (he ▸ hd) (by decide)
  have hn : key ≠ str "\n" := fun he => absurd (he ▸ hd) (by decide)
  have ht : key ≠ str "\t" := fun he => absurd (he ▸ hd) (by decide)
  simp only [command_interactive_step]
  rw [if_neg (by tauto), if_neg (by tauto), if_pos ⟨hd, hin, hfil⟩]
  split
  · cases hget : (get_filtered_commands app.commands ui.filter_text)[
        ((digitsToNat key : Int) - 1).toNat]? with
    | none => simp [hget]
    | some entry =>
        simp only [hget, Option.map_some]
        split
        · rfl
        · split <;> rfl
  · rfl

/-- Twelve saved commands, for the quick-select scenario. -/
def app12 : AppState :=
  ⟨[(str "c01", ⟨.link, str "echo 1", [], [], []⟩),
    (str "c02", ⟨.link, str "echo 2", [], [], []⟩),
    (str "c03", ⟨.link, str "echo 3", [], [], []⟩),
    (str "c04", ⟨.link, str "echo 4", [], [], []⟩),
    (str "c05", ⟨.link, str "echo 5", [], [], []⟩),
    (str "c06", ⟨.link, str "echo 6", [], [], []⟩),
    (str "c07", ⟨.link, str "echo 7", [], [], []⟩),
    (str "c08", ⟨.link, str "echo 8", [], [], []⟩),
    (str "c09", ⟨.link, str "echo 9", [], [], []⟩),
    (str "c10", ⟨.link, str "echo 10", [], [], []⟩),
    (str "c11", ⟨.link, str "echo 11", [], [], []⟩),
    (str "c12", ⟨.link, str "echo 12", [], [], []⟩)],
    ⟨[], []⟩, ⟨[], ⟨[], []⟩⟩, []⟩

/-- Witness for `digit_quick_select` on a 12-item list: `5` runs the entry
at index 4 and `9` runs the entry at index 8. -/
theorem digit_quick_select_witness :
    (command_interactive_step (str "5") env₀ ui₀ app12).ran = some (str "c05")
    ∧ (command_interactive_step (str "9") env₀ ui₀ app12).ran = some (str "c09") := by
  constructor
  · rw [digit_quick_select (str "5") env₀ ui₀ app12 rfl rfl (by decide)]
    decide
  · rw [digit_quick_select (str "9") env₀ ui₀ app12 rfl rfl (by decide)]
    decide

/-- Three commands whose bodies (not aliases) match the filter `zz`. -/
def appZZ : AppState :=
  ⟨[(str "a1", ⟨.link, str "make zz1", [], [], []⟩),
    (str "a2", ⟨.link, str "make zz2", [], [], []⟩),
    (str "a3", ⟨.link, str "make zz3", [], [], []⟩)],
    ⟨[], []⟩, ⟨[], ⟨[], []⟩⟩, []⟩

/-- The UI just before the breaking dispatch: the filter `zz` is committed
(all three entries displayed), the cursor sits on index 2 (in bounds), and
the text buffer holds `add a3 cd /tmp`, which overwrites `a3` with a body
that no longer matches the filter. -/
def uiZZ : UIState := ⟨2, str "add a3 cd /tmp", true, false, str "zz", true⟩

/-- C9 evaluation at the failing input: from a state satisfying the bound
(`selected_index = 2 < 3` displayed entries), dispatching Enter runs
`add a3 cd /tmp`; the overwritten entry drops out of the filtered display
(2 entries remain) but `selected_index` stays 2 — out of bounds of the
displayed list, violating the claimed invariant. -/
theorem add_overwrite_breaks_selection_bound :
    uiZZ.selected_index < (get_filtered_commands appZZ.commands uiZZ.filter_text).length
    ∧ (command_interactive_step (str "\r") env₀ uiZZ appZZ).ui.selected_index = 2
    ∧ (get_filtered_commands (command_interactive_step (str "\r") env₀ uiZZ appZZ).app.commands
        (command_interactive_step (str "\r") env₀ uiZZ appZZ).ui.filter_text).length = 2 := by
  refine ⟨by decide, by decide, by decide⟩

end QL
